import Mathlib

/-!
Verification of the masar employee record keeper (src/masar.py).

The data layer is embedded shallowly: SQLite tables become Lean lists,
Python strings become `String` (lists of characters), and each operation of
`EmployeeTab` / `ReportTab` becomes a pure function on an explicit `Store`
state.  All definitions are translated from the source file; definitions
that instead follow the specification's words are marked as such in their
doc comments.
-/

/-- Characters treated as whitespace by Python's `str.strip` / `str.isspace`. -/
def pyIsSpace (c : Char) : Bool :=
  [' ', '\t', '\n', '\x0b', '\x0c', '\r',
   '\x1c', '\x1d', '\x1e', '\x1f', '\u0085', '\u00A0', '\u1680'].contains c
  || (decide ('\u2000' ≤ c) && decide (c ≤ '\u200A'))
  || ['\u2028', '\u2029', '\u202F', '\u205F', '\u3000'].contains c

/-- Digit characters as accepted by Python's `str.isdigit` for the inputs this
application can see: ASCII digits plus the Arabic-Indic and extended Arabic-Indic
digit blocks.  (Python also accepts a few other Unicode digit classes; none of
the claims depend on them.) -/
def pyIsDigit (c : Char) : Bool :=
  (decide ('0' ≤ c) && decide (c ≤ '9'))
  || (decide ('٠' ≤ c) && decide (c ≤ '٩'))
  || (decide ('۰' ≤ c) && decide (c ≤ '۹'))

/-- Python `str.strip()` on a list of characters: drop whitespace from the
front, then from the back. -/
def pyStripChars (l : List Char) : List Char :=
  ((l.dropWhile pyIsSpace).reverse.dropWhile pyIsSpace).reverse

/-- Python `str.strip()`. -/
def pyStrip (s : String) : String :=
  ⟨pyStripChars s.data⟩

/-- Python `str.isdigit()`: non-empty and every character a digit. -/
def pyIsDigitStr (s : String) : Bool :=
  !s.data.isEmpty && s.data.all pyIsDigit

/-- The tatweel (kashida) elongation character removed by the normalizer. -/
def tatweel : Char := 'ـ'

/-- Python `str.replace(src, tgt)` for single characters. -/
def strReplaceChar (l : List Char) (src tgt : Char) : List Char :=
  l.map fun c => if c = src then tgt else c

/-- `normalize_arabic` from src/masar.py: remove tatweel, map the hamza-bearing
alef forms to bare alef, ta marbuta to ha, alef maksura to ya, then strip
leading/trailing whitespace.  The empty string is returned unchanged. -/
def normalize_arabic (s : String) : String :=
  if s = "" then s
  else
    let t0 := s.data.filter fun c => c != tatweel
    let t1 := strReplaceChar t0 'أ' 'ا'
    let t2 := strReplaceChar t1 'إ' 'ا'
    let t3 := strReplaceChar t2 'آ' 'ا'
    let t4 := strReplaceChar t3 'ة' 'ه'
    let t5 := strReplaceChar t4 'ى' 'ي'
    ⟨pyStripChars t5⟩

example : normalize_arabic " أحمد " = "احمد" := by decide
example : normalize_arabic "مـحـمـد" = "محمد" := by decide
example : normalize_arabic "" = "" := by decide
example : pyStrip "  ab c " = "ab c" := by decide
example : pyIsDigitStr "12345678901234" = true := by decide
example : pyIsDigitStr "" = false := by decide

/-! ## Dates (`datetime.date`, `datetime.strptime` with format `%Y-%m-%d`) -/

/-- A calendar date, as `datetime.date`. -/
structure PyDate where
  y : Nat
  m : Nat
  d : Nat
deriving DecidableEq, Repr

/-- `date` comparison `a < b` (lexicographic on year, month, day). -/
def dateLtB (a b : PyDate) : Bool :=
  Nat.blt a.y b.y
  || (a.y == b.y && (Nat.blt a.m b.m || (a.m == b.m && Nat.blt a.d b.d)))

def isLeapYear (y : Nat) : Bool :=
  (y % 4 == 0 && y % 100 != 0) || y % 400 == 0

def daysInMonth (y m : Nat) : Nat :=
  if m == 2 then (if isLeapYear y then 29 else 28)
  else if m == 4 || m == 6 || m == 9 || m == 11 then 30
  else 31

def isAsciiDigit (c : Char) : Bool := decide ('0' ≤ c) && decide (c ≤ '9')

def digitsVal (l : List Char) : Nat :=
  l.foldl (fun a c => a * 10 + (c.toNat - '0'.toNat)) 0

/-- Python `str.split("-")`. -/
def splitDash : List Char → List (List Char)
  | [] => [[]]
  | c :: rest =>
    let r := splitDash rest
    if c = '-' then [] :: r
    else
      match r with
      | [] => [[c]]
      | g :: gs => (c :: g) :: gs

/-- `datetime.datetime.strptime(s, "%Y-%m-%d").date()` as an `Option`:
four digits for the year, one or two digits for month and day, and the
result must be a real calendar date (year at least 1).  Returns `none`
where CPython raises `ValueError`. -/
def parse_date (s : String) : Option PyDate :=
  match splitDash s.data with
  | [ys, ms, ds] =>
    if ys.length == 4 && ys.all isAsciiDigit
        && (ms.length == 1 || ms.length == 2) && ms.all isAsciiDigit
        && (ds.length == 1 || ds.length == 2) && ds.all isAsciiDigit then
      let y := digitsVal ys
      let m := digitsVal ms
      let d := digitsVal ds
      if decide (1 ≤ y) && decide (1 ≤ m) && decide (m ≤ 12)
          && decide (1 ≤ d) && decide (d ≤ daysInMonth y m) then
        some ⟨y, m, d⟩
      else none
    else none
  | _ => none

example : parse_date "2000-01-01" = some ⟨2000, 1, 1⟩ := by decide
example : parse_date "2999-01-01" = some ⟨2999, 1, 1⟩ := by decide
example : parse_date "2021-02-30" = none := by decide
example : parse_date "2000-1-1" = some ⟨2000, 1, 1⟩ := by decide
example : parse_date "01-01-2000" = none := by decide
example : parse_date "x" = none := by decide

/-! ## Data model: the `employee` and `attachment` tables -/

/-- The fixed set of employee text attributes (`EMPLOYEE_FIELDS`). -/
structure EmployeeForm where
  name : String
  grade : String
  grade_date : String
  hire_date : String
  file_no : String
  qualification : String
  functional_group : String
  type_group : String
  job_title : String
  department : String
  current_work : String
  birth_date : String
  insurance_no : String
  national_id : String
  address : String
  phone : String
  notes : String
deriving DecidableEq, Repr

/-- The field values in `EMPLOYEE_FIELDS` order (the SELECT column order). -/
def formValues (f : EmployeeForm) : List String :=
  [f.name, f.grade, f.grade_date, f.hire_date, f.file_no, f.qualification,
   f.functional_group, f.type_group, f.job_title, f.department, f.current_work,
   f.birth_date, f.insurance_no, f.national_id, f.address, f.phone, f.notes]

/-- `[normalize_arabic(form_fields[f].text()) for f in EMPLOYEE_FIELDS]`:
every attribute normalized before persisting. -/
def normalizeForm (f : EmployeeForm) : EmployeeForm where
  name := normalize_arabic f.name
  grade := normalize_arabic f.grade
  grade_date := normalize_arabic f.grade_date
  hire_date := normalize_arabic f.hire_date
  file_no := normalize_arabic f.file_no
  qualification := normalize_arabic f.qualification
  functional_group := normalize_arabic f.functional_group
  type_group := normalize_arabic f.type_group
  job_title := normalize_arabic f.job_title
  department := normalize_arabic f.department
  current_work := normalize_arabic f.current_work
  birth_date := normalize_arabic f.birth_date
  insurance_no := normalize_arabic f.insurance_no
  national_id := normalize_arabic f.national_id
  address := normalize_arabic f.address
  phone := normalize_arabic f.phone
  notes := normalize_arabic f.notes

/-- A row of the `employee` table. -/
structure Employee where
  id : Nat
  fields : EmployeeForm
deriving DecidableEq, Repr

/-- A row of the `attachment` table.  `filetype` and `upload_date` are
`Option` because the re-insert paths write only four columns (the rest are
NULL). -/
structure Attachment where
  id : Nat
  employee_id : Nat
  filename : String
  filepath : String
  filetype : Option String
  upload_date : Option String
  is_photo : Bool
deriving DecidableEq, Repr

/-- The relational store: both tables plus the AUTOINCREMENT counters. -/
structure Store where
  employees : List Employee
  attachments : List Attachment
  nextEmpId : Nat
  nextAttId : Nat
deriving DecidableEq, Repr

/-- A freshly initialized database (`init_db`). -/
def emptyStore : Store :=
  { employees := [], attachments := [], nextEmpId := 1, nextAttId := 1 }

/-- An all-empty form. -/
def emptyForm : EmployeeForm :=
  { name := "", grade := "", grade_date := "", hire_date := "", file_no := "",
    qualification := "", functional_group := "", type_group := "",
    job_title := "", department := "", current_work := "", birth_date := "",
    insurance_no := "", national_id := "", address := "", phone := "",
    notes := "" }

/-! ## Validation (`EmployeeTab.validate_employee_form`) -/

/-- The distinct user-facing error messages of `validate_employee_form`,
one constructor per Arabic message string. -/
inductive DateField
  | grade_date
  | hire_date
  | birth_date
deriving DecidableEq, Repr

inductive VErr
  | nameRequired
  | fileNoRequired
  | fileNoDup
  | natIdRequired
  | natIdFormat
  | natIdDup
  | phoneFormat
  | dateFuture (f : DateField)
  | dateFormat (f : DateField)
deriving DecidableEq, Repr

/-- `SELECT id FROM employee WHERE file_no=? [AND id!=?]` returns a row. -/
def fileNoTaken (st : Store) (fno : String) (skip : Option Nat) : Bool :=
  st.employees.any fun e =>
    e.fields.file_no == fno
      && (match skip with | some i => e.id != i | none => true)

/-- `SELECT id FROM employee WHERE national_id=? [AND id!=?]` returns a row. -/
def natIdTaken (st : Store) (nid : String) (skip : Option Nat) : Bool :=
  st.employees.any fun e =>
    e.fields.national_id == nid
      && (match skip with | some i => e.id != i | none => true)

/-- One date field of the loop at the end of `validate_employee_form`:
empty is fine, otherwise the stripped text must parse as `%Y-%m-%d` and
must not be after `today`. -/
def checkDateField (s : String) (tag : DateField) (today : PyDate) : Option VErr :=
  let v := pyStrip s
  if v = "" then none
  else
    match parse_date v with
    | none => some (.dateFormat tag)
    | some dv => if dateLtB today dv then some (.dateFuture tag) else none

/-- The `for field in date_fields` loop, in its fixed order
grade_date, hire_date, birth_date. -/
def checkDates (form : EmployeeForm) (today : PyDate) : Option VErr :=
  match checkDateField form.grade_date .grade_date today with
  | some e => some e
  | none =>
    match checkDateField form.hire_date .hire_date today with
    | some e => some e
    | none => checkDateField form.birth_date .birth_date today

/-- `EmployeeTab.validate_employee_form(skip_id)`, with `datetime.date.today()`
passed explicitly.  Returns `none` for `(True, "")` and `some e` for
`(False, message)`. -/
def validate_employee_form (st : Store) (skip : Option Nat)
    (form : EmployeeForm) (today : PyDate) : Option VErr :=
  let name := pyStrip form.name
  let file_no := pyStrip form.file_no
  let national_id := pyStrip form.national_id
  let phone := pyStrip form.phone
  if name = "" then some .nameRequired
  else if file_no = "" then some .fileNoRequired
  else if fileNoTaken st file_no skip then some .fileNoDup
  else if national_id = "" then some .natIdRequired
  else if !(pyIsDigitStr national_id && national_id.length == 14) then some .natIdFormat
  else if natIdTaken st national_id skip then some .natIdDup
  else if phone != "" && !(pyIsDigitStr phone) then some .phoneFormat
  else checkDates form today

/-! ## CRUD operations (`EmployeeTab`) -/

/-- The loop `for fname, fpath in self.attachments: INSERT INTO attachment
(employee_id, filename, filepath, is_photo) VALUES (...)`, with
`is_photo = 1 iff fpath == self.photo_path`. -/
def insertAttachments (st : Store) (empId : Nat)
    (pending : List (String × String)) (photoPath : Option String) : Store :=
  pending.foldl
    (fun acc fp =>
      { acc with
        attachments := acc.attachments ++
          [{ id := acc.nextAttId, employee_id := empId, filename := fp.1,
             filepath := fp.2, filetype := none, upload_date := none,
             is_photo := photoPath == some fp.2 }],
        nextAttId := acc.nextAttId + 1 })
    st

/-- `EmployeeTab.add_employee` with no employee selected: validate, then
INSERT the normalized values as a fresh row and persist the pending
attachment list.  On a validation failure a message box is shown and the
method returns, so the store is returned unchanged together with the error. -/
def add_employee (st : Store) (form : EmployeeForm)
    (pending : List (String × String)) (photoPath : Option String)
    (today : PyDate) : Option VErr × Store :=
  match validate_employee_form st none form today with
  | some e => (some e, st)
  | none =>
    let vals := normalizeForm form
    let empId := st.nextEmpId
    let st1 := { st with
      employees := st.employees ++ [{ id := empId, fields := vals }],
      nextEmpId := empId + 1 }
    (none, insertAttachments st1 empId pending photoPath)

/-- `EmployeeTab.edit_employee` (the update path, also taken by
`add_employee` when an employee is selected): validate excluding the
record's own id, UPDATE all attributes to the normalized values, DELETE the
record's attachment rows and re-insert the in-memory attachment list. -/
def edit_employee (st : Store) (empId : Nat) (form : EmployeeForm)
    (pending : List (String × String)) (photoPath : Option String)
    (today : PyDate) : Option VErr × Store :=
  match validate_employee_form st (some empId) form today with
  | some e => (some e, st)
  | none =>
    let vals := normalizeForm form
    let st1 := { st with
      employees := st.employees.map fun (e : Employee) =>
        if e.id = empId then { e with fields := vals } else e }
    let st2 := { st1 with
      attachments := st1.attachments.filter fun a => a.employee_id != empId }
    (none, insertAttachments st2 empId pending photoPath)

/-- `EmployeeTab.delete_employee`: DELETE the employee row and all its
attachment rows. -/
def delete_employee (st : Store) (empId : Nat) : Store :=
  { st with
    employees := st.employees.filter fun e => e.id != empId,
    attachments := st.attachments.filter fun a => a.employee_id != empId }

/-- `SELECT id, ... FROM employee` in storage order. -/
def list_employees (st : Store) : List Employee :=
  st.employees

/-! ## Search (`EmployeeTab.search_employees`) and SQLite `LIKE` -/

/-- SQLite folds only the ASCII letters A-Z for `LIKE`. -/
def asciiLowChar (c : Char) : Char :=
  if decide ('A' ≤ c) && decide (c ≤ 'Z') then Char.ofNat (c.toNat + 32) else c

/-- Character match of SQLite `LIKE`: equal up to ASCII case. -/
def likeCharEq (p c : Char) : Bool :=
  asciiLowChar p == asciiLowChar c

/-- `anySuffix f s` is true when `f` accepts some suffix of `s`. -/
def anySuffix (f : List Char → Bool) : List Char → Bool
  | [] => f []
  | c :: cs => f (c :: cs) || anySuffix f cs

/-- SQLite `LIKE` pattern matching: `%` matches any sequence, `_` any single
character, other characters match ASCII-case-insensitively. -/
def likeMatch : List Char → List Char → Bool
  | [], s => s.isEmpty
  | '%' :: ps, s => anySuffix (likeMatch ps) s
  | '_' :: ps, s =>
    match s with
    | [] => false
    | _ :: cs => likeMatch ps cs
  | p :: ps, s =>
    match s with
    | [] => false
    | c :: cs => likeCharEq p c && likeMatch ps cs

/-- `value LIKE '%needle%'`. -/
def likeContains (needle hay : String) : Bool :=
  likeMatch ('%' :: needle.data ++ ['%']) hay.data

/-- `EmployeeTab.search_employees`: normalize the query, then return the rows
where name, department, file_no or national_id is LIKE `%query%`. -/
def search_employees (st : Store) (q : String) : List Employee :=
  let norm := normalize_arabic q
  st.employees.filter fun e =>
    likeContains norm e.fields.name
    || likeContains norm e.fields.department
    || likeContains norm e.fields.file_no
    || likeContains norm e.fields.national_id

example : likeContains "a" "A" = true := by decide
example : likeContains "a" "xay" = true := by decide
example : likeContains "b" "xay" = false := by decide
example : likeContains "احمد" "احمد علي" = true := by decide

/-! ## Attachment upload (`EmployeeTab.upload_files`, `get_employee_folder`) -/

/-- A file system: paths mapped to byte contents.  Writes shadow older
entries. -/
abbrev FileSys := List (String × List Nat)

def fsRead (fs : FileSys) (p : String) : Option (List Nat) :=
  (fs.find? fun e => e.1 == p).map fun e => e.2

def fsExists (fs : FileSys) (p : String) : Bool :=
  (fsRead fs p).isSome

def fsWrite (fs : FileSys) (p : String) (b : List Nat) : FileSys :=
  (p, b) :: fs

def ATTACHMENTS_DIR : String := "attachments"

/-- `get_employee_folder(file_no)`: the per-employee directory
`attachments/<file_no>` (creation of the directory itself is not modelled). -/
def get_employee_folder (file_no : String) : String :=
  ATTACHMENTS_DIR ++ "/" ++ file_no

/-- `os.path.basename`: the part after the last `/`. -/
def basename (p : String) : String :=
  ⟨((p.data.reverse.takeWhile fun c => c != '/').reverse)⟩

/-- The mutable state touched by one iteration of the `upload_files` loop:
the file system, the in-memory `self.attachments` list, and the database. -/
structure UploadState where
  fs : FileSys
  attachList : List (String × String)
  st : Store
deriving Repr

/-- The tail of a loop iteration once the file is on disk: append
`(fname, dest)` to the in-memory list, and if an employee is selected,
INSERT an attachment row with the guessed media type and current timestamp. -/
def recordUpload (selected : Option Nat) (guessType : String → Option String)
    (nowStr : String) (us : UploadState) (fname dest : String) : UploadState :=
  let us1 := { us with attachList := us.attachList ++ [(fname, dest)] }
  match selected with
  | none => us1
  | some empId =>
    { us1 with st := { us1.st with
        attachments := us1.st.attachments ++
          [{ id := us1.st.nextAttId, employee_id := empId, filename := fname,
             filepath := dest, filetype := some ((guessType dest).getD ""),
             upload_date := some nowStr, is_photo := false }],
        nextAttId := us1.st.nextAttId + 1 } }

/-- One iteration of the `for f in files` loop of `upload_files`: compute the
destination `attachments/<file_no>/<basename f>`; if that path already exists
the copy is skipped (first-writer-wins), otherwise the source bytes are
copied; if the copy raises (unreadable source) the iteration `continue`s
without recording anything. -/
def upload_one (guessType : String → Option String) (nowStr : String)
    (selected : Option Nat) (file_no : String)
    (us : UploadState) (src : String) : UploadState :=
  let fname := basename src
  let dest := get_employee_folder file_no ++ "/" ++ fname
  if fsExists us.fs dest then
    recordUpload selected guessType nowStr us fname dest
  else
    match fsRead us.fs src with
    | none => us
    | some bytes =>
      recordUpload selected guessType nowStr
        { us with fs := fsWrite us.fs dest bytes } fname dest

/-- `EmployeeTab.upload_files` over the selected file list. -/
def upload_files (guessType : String → Option String) (nowStr : String)
    (selected : Option Nat) (file_no : String)
    (us : UploadState) (files : List String) : UploadState :=
  files.foldl (upload_one guessType nowStr selected file_no) us

example : basename "/a/b/c.txt" = "c.txt" := by decide
example : basename "c.txt" = "c.txt" := by decide

/-! ## PDF export (`ReportTab.export_pdf`) -/

/-- The Arabic column labels (`AR_LABELS`) in `EMPLOYEE_FIELDS` order. -/
def export_headers : List String :=
  ["الاسم", "الدرجة", "تاريخ الحصول عليها", "تاريخ التعيين", "رقم الملف",
   "المؤهل", "مجموعة وظيفية", "مجموعة نوعية", "المسمى الوظيفي", "القسم",
   "العمل القائم به", "تاريخ الميلاد", "رقم تأميني", "رقم قومي",
   "عنوان حالي", "رقم التليفون", "ملاحظات"]

/-- The fixed HTML up to and including the opening `<tr>` of the header row:
RTL body, Arabic font, fixed table layout with wrapped cells. -/
def htmlDocHead : String :=
  "\n<html lang=\"ar\">\n<head>\n<meta charset=\"utf-8\">\n<style>\n" ++
  "@font-face \x7b\nfont-family: \x27Amiri\x27;\nsrc: url(\x27Amiri-Regular.ttf\x27);\n\x7d\n" ++
  "body \x7b\ndirection: rtl;\nfont-family: \x27Amiri\x27, \x27Cairo\x27, \x27Tahoma\x27, sans-serif;\nfont-size: 10px;\n\x7d\n" ++
  "table \x7b\nborder-collapse: collapse;\nwidth: 100%;\ntable-layout: fixed;\n\x7d\n" ++
  "th, td \x7b\nborder: 1px solid #888;\npadding: 6px 4px;\nword-break: break-word;\nvertical-align: top;\ntext-align: right;\n\x7d\n" ++
  "th \x7b\nbackground: #b3d1f7;\n\x7d\n</style>\n</head>\n<body>\n" ++
  "<h2 style=\"text-align:center;\">تقرير الموظفين</h2>\n<table dir=\"ltr\">\n<thead>\n<tr>\n"

/-- Between the header row and the data rows. -/
def htmlDocMid : String := "\n</tr>\n</thead>\n<tbody>\n"

/-- After the data rows. -/
def htmlDocTail : String := "\n</tbody>\n</table>\n</body>\n</html>\n"

def thCell (h : String) : String := "<th>" ++ h ++ "</th>"

/-- `f"<td>{cell if cell else ''}</td>"`. -/
def tdCell (c : String) : String :=
  "<td>" ++ (if c = "" then "" else c) ++ "</td>"

/-- One `<tr>`, cells in reverse field order (`row[::-1]`). -/
def trRow (row : List String) : String :=
  "<tr>" ++ String.join (row.reverse.map tdCell) ++ "</tr>"

/-- `ReportTab.export_pdf` up to handing the HTML to WeasyPrint: SELECT all
rows, build the right-to-left document whose header cells are the Arabic
labels in reverse field order (`headers[::-1]`), one `<tr>` per record.  The
store is only read; it is returned unchanged as the second component. -/
def export_pdf (st : Store) : String × Store :=
  let rows := st.employees.map fun e => formValues e.fields
  let html := htmlDocHead
    ++ String.join (export_headers.reverse.map thCell)
    ++ htmlDocMid
    ++ String.join (rows.map trRow)
    ++ htmlDocTail
  (html, st)

/-! ## Lemmas about stripping and character replacement -/

theorem mem_strReplaceChar {c : Char} {l : List Char} {a b : Char}
    (h : c ∈ strReplaceChar l a b) : c = b ∨ (c ∈ l ∧ c ≠ a) := by
  simp only [strReplaceChar] at h
  rcases List.mem_map.1 h with ⟨x, hx, hxe⟩
  by_cases hxa : x = a
  · subst hxa
    rw [if_pos rfl] at hxe
    exact Or.inl hxe.symm
  · rw [if_neg hxa] at hxe
    subst hxe
    exact Or.inr ⟨hx, hxa⟩

theorem strReplaceChar_eq_self {l : List Char} {a b : Char}
    (h : ∀ x ∈ l, x ≠ a) : strReplaceChar l a b = l := by
  induction l with
  | nil => rfl
  | cons x t ih =>
    have hx : x ≠ a := h x (List.mem_cons_self x t)
    have ht := ih fun y hy => h y (List.mem_cons_of_mem x hy)
    simp only [strReplaceChar, List.map_cons] at ht ⊢
    rw [if_neg hx]
    exact congrArg (x :: ·) ht

theorem head_all_dropWhile (p : Char → Bool) (l : List Char) :
    ((l.dropWhile p).head?).all (fun c => !p c) = true := by
  induction l with
  | nil => rfl
  | cons a t ih =>
    cases hp : p a with
    | true => simpa [List.dropWhile_cons_of_pos hp] using ih
    | false =>
      have hneg : ¬ p a = true := by simp [hp]
      rw [List.dropWhile_cons_of_neg hneg]
      simp [Option.all, hp]

theorem dropWhile_eq_self_of_head {p : Char → Bool} {l : List Char}
    (h : (l.head?).all (fun c => !p c) = true) : l.dropWhile p = l := by
  cases l with
  | nil => rfl
  | cons a t =>
    have hp : p a = false := by
      simpa [Option.all, Bool.not_eq_true'] using h
    have hneg : ¬ p a = true := by simp [hp]
    exact List.dropWhile_cons_of_neg hneg

theorem getLast?_dropWhile {p : Char → Bool} (l : List Char)
    (h : l.dropWhile p ≠ []) : (l.dropWhile p).getLast? = l.getLast? := by
  induction l with
  | nil => exact absurd rfl h
  | cons a t ih =>
    cases hp : p a with
    | false =>
      have hneg : ¬ p a = true := by simp [hp]
      rw [List.dropWhile_cons_of_neg hneg]
    | true =>
      have hd : (a :: t).dropWhile p = t.dropWhile p :=
        List.dropWhile_cons_of_pos hp
      rw [hd] at h ⊢
      rw [ih h]
      have ht : t ≠ [] := by
        intro h0
        rw [h0] at h
        exact h rfl
      cases t with
      | nil => exact absurd rfl ht
      | cons b u => rw [List.getLast?_cons_cons]

theorem mem_pyStripChars {c : Char} {l : List Char}
    (h : c ∈ pyStripChars l) : c ∈ l := by
  simp only [pyStripChars, List.mem_reverse] at h
  have h1 := List.dropWhile_subset pyIsSpace h
  rw [List.mem_reverse] at h1
  exact List.dropWhile_subset pyIsSpace h1

theorem pyStripChars_head_all (l : List Char) :
    ((pyStripChars l).head?).all (fun c => !pyIsSpace c) = true := by
  unfold pyStripChars
  set m := l.dropWhile pyIsSpace with hm
  set n := m.reverse.dropWhile pyIsSpace with hn
  rw [List.head?_reverse]
  cases he : n with
  | nil => rfl
  | cons b u =>
    have hne : n ≠ [] := by rw [he]; exact List.cons_ne_nil b u
    have h1 : n.getLast? = m.reverse.getLast? := getLast?_dropWhile m.reverse hne
    rw [← he, h1, List.getLast?_reverse]
    have h2 := head_all_dropWhile pyIsSpace l
    rw [← hm] at h2
    exact h2

theorem pyStripChars_getLast_all (l : List Char) :
    ((pyStripChars l).getLast?).all (fun c => !pyIsSpace c) = true := by
  unfold pyStripChars
  rw [List.getLast?_reverse]
  exact head_all_dropWhile pyIsSpace _

theorem pyStripChars_eq_self {l : List Char}
    (h1 : (l.head?).all (fun c => !pyIsSpace c) = true)
    (h2 : (l.getLast?).all (fun c => !pyIsSpace c) = true) :
    pyStripChars l = l := by
  unfold pyStripChars
  rw [dropWhile_eq_self_of_head h1]
  rw [dropWhile_eq_self_of_head (by rw [List.head?_reverse]; exact h2)]
  exact List.reverse_reverse l

theorem pyStripChars_decomp (l : List Char) :
    ∃ a b, l = a ++ pyStripChars l ++ b
      ∧ (∀ c ∈ a, pyIsSpace c = true) ∧ (∀ c ∈ b, pyIsSpace c = true) := by
  refine ⟨l.takeWhile pyIsSpace,
    ((l.dropWhile pyIsSpace).reverse.takeWhile pyIsSpace).reverse, ?_, ?_, ?_⟩
  · conv_lhs => rw [← List.takeWhile_append_dropWhile pyIsSpace l]
    rw [List.append_assoc]
    refine congrArg (l.takeWhile pyIsSpace ++ ·) ?_
    conv_lhs =>
      rw [← List.reverse_reverse (l.dropWhile pyIsSpace),
        ← List.takeWhile_append_dropWhile pyIsSpace (l.dropWhile pyIsSpace).reverse,
        List.reverse_append]
    rfl
  · intro c hc
    exact List.mem_takeWhile_imp hc
  · intro c hc
    rw [List.mem_reverse] at hc
    exact List.mem_takeWhile_imp hc

/-! ## Properties of the normalizer (claim C3) -/

theorem normalize_no_bad {s : String} {c : Char}
    (h : c ∈ (normalize_arabic s).data) :
    c ≠ tatweel ∧ c ≠ 'أ' ∧ c ≠ 'إ' ∧ c ≠ 'آ' ∧ c ≠ 'ة' ∧ c ≠ 'ى' := by
  by_cases hs : s = ""
  · subst hs
    simp [normalize_arabic] at h
  · simp only [normalize_arabic, if_neg hs] at h
    have h5 := mem_pyStripChars h
    rcases mem_strReplaceChar h5 with rfl | ⟨h4, n5⟩
    · decide
    rcases mem_strReplaceChar h4 with rfl | ⟨h3, n4⟩
    · decide
    rcases mem_strReplaceChar h3 with rfl | ⟨h2, n3⟩
    · decide
    rcases mem_strReplaceChar h2 with rfl | ⟨h1, n2⟩
    · decide
    rcases mem_strReplaceChar h1 with rfl | ⟨h0, n1⟩
    · decide
    have hnt : c ≠ tatweel := by
      have := (List.mem_filter.1 h0).2
      simpa using this
    exact ⟨hnt, n1, n2, n3, n4, n5⟩

theorem normalize_head_all (s : String) :
    (((normalize_arabic s).data).head?).all (fun c => !pyIsSpace c) = true := by
  by_cases hs : s = ""
  · subst hs; decide
  · simp only [normalize_arabic, if_neg hs]
    exact pyStripChars_head_all _

theorem normalize_getLast_all (s : String) :
    (((normalize_arabic s).data).getLast?).all (fun c => !pyIsSpace c) = true := by
  by_cases hs : s = ""
  · subst hs; decide
  · simp only [normalize_arabic, if_neg hs]
    exact pyStripChars_getLast_all _

theorem normalize_fixed {r : String}
    (hbad : ∀ c ∈ r.data,
      c ≠ tatweel ∧ c ≠ 'أ' ∧ c ≠ 'إ' ∧ c ≠ 'آ' ∧ c ≠ 'ة' ∧ c ≠ 'ى')
    (hh : ((r.data).head?).all (fun c => !pyIsSpace c) = true)
    (hl : ((r.data).getLast?).all (fun c => !pyIsSpace c) = true) :
    normalize_arabic r = r := by
  by_cases h0 : r = ""
  · rw [h0]; decide
  · simp only [normalize_arabic, if_neg h0]
    have e0 : r.data.filter (fun c => c != tatweel) = r.data :=
      List.filter_eq_self.2 fun c hc => by simpa using (hbad c hc).1
    rw [e0]
    rw [strReplaceChar_eq_self fun x hx => (hbad x hx).2.1]
    rw [strReplaceChar_eq_self fun x hx => (hbad x hx).2.2.1]
    rw [strReplaceChar_eq_self fun x hx => (hbad x hx).2.2.2.1]
    rw [strReplaceChar_eq_self fun x hx => (hbad x hx).2.2.2.2.1]
    rw [strReplaceChar_eq_self fun x hx => (hbad x hx).2.2.2.2.2]
    rw [pyStripChars_eq_self hh hl]

/-- Claim C3: for every input string, `normalize_arabic` produces a string with
no tatweel character and none of the normalized Arabic letter variants
(hamza-bearing alef forms, ta marbuta, alef maksura), with no leading or
trailing whitespace, and it is idempotent. -/
theorem c3_normalize_props (s : String) :
    ((normalize_arabic s).data.all fun c =>
        c != tatweel && c != 'أ' && c != 'إ' && c != 'آ' && c != 'ة' && c != 'ى') = true
    ∧ (((normalize_arabic s).data.head?).all (fun c => !pyIsSpace c) = true)
    ∧ (((normalize_arabic s).data.getLast?).all (fun c => !pyIsSpace c) = true)
    ∧ normalize_arabic (normalize_arabic s) = normalize_arabic s := by
  refine ⟨?_, normalize_head_all s, normalize_getLast_all s, ?_⟩
  · rw [List.all_eq_true]
    intro c hc
    have h := normalize_no_bad hc
    simp only [Bool.and_eq_true, bne_iff_ne, ne_eq]
    tauto
  · exact normalize_fixed (fun c hc => normalize_no_bad hc)
      (normalize_head_all s) (normalize_getLast_all s)

/-! ## Claim C2: validation order, short-circuit, and no partial writes -/

/-- Name must be non-empty (after stripping). -/
def checkNamePresent (form : EmployeeForm) : Option VErr :=
  if pyStrip form.name = "" then some .nameRequired else none

/-- File number must be non-empty. -/
def checkFileNoPresent (form : EmployeeForm) : Option VErr :=
  if pyStrip form.file_no = "" then some .fileNoRequired else none

/-- File number must not collide with another row. -/
def checkFileNoUnique (st : Store) (skip : Option Nat) (form : EmployeeForm) : Option VErr :=
  if fileNoTaken st (pyStrip form.file_no) skip then some .fileNoDup else none

/-- National id must be non-empty. -/
def checkNatIdPresent (form : EmployeeForm) : Option VErr :=
  if pyStrip form.national_id = "" then some .natIdRequired else none

/-- National id must be exactly 14 digits. -/
def checkNatIdFormat (form : EmployeeForm) : Option VErr :=
  if !(pyIsDigitStr (pyStrip form.national_id)
      && (pyStrip form.national_id).length == 14) then some .natIdFormat
  else none

/-- National id must not collide with another row. -/
def checkNatIdUnique (st : Store) (skip : Option Nat) (form : EmployeeForm) : Option VErr :=
  if natIdTaken st (pyStrip form.national_id) skip then some .natIdDup else none

/-- Phone, when present, must be all digits. -/
def checkPhoneFormat (form : EmployeeForm) : Option VErr :=
  if pyStrip form.phone != "" && !(pyIsDigitStr (pyStrip form.phone)) then some .phoneFormat
  else none

/-- The validation checks in the order the specification requires:
name presence, file_no presence, file_no uniqueness, national_id presence,
national_id format, national_id uniqueness, phone format, then each date
field in fixed field order. -/
def orderedChecks (st : Store) (skip : Option Nat) (form : EmployeeForm)
    (today : PyDate) : List (Option VErr) :=
  [checkNamePresent form,
   checkFileNoPresent form,
   checkFileNoUnique st skip form,
   checkNatIdPresent form,
   checkNatIdFormat form,
   checkNatIdUnique st skip form,
   checkPhoneFormat form,
   checkDateField form.grade_date .grade_date today,
   checkDateField form.hire_date .hire_date today,
   checkDateField form.birth_date .birth_date today]

/-- First failure wins: the earliest `some` of the list, `none` otherwise. -/
def firstFailure : List (Option VErr) → Option VErr
  | [] => none
  | some e :: _ => some e
  | none :: rest => firstFailure rest

/-- Claim C2: `validate_employee_form` returns exactly the first failing check
of the fixed ordered list (short-circuit, deterministic first error), and a
validation failure leaves both the employee table and the attachment table
untouched in `add_employee` and in `edit_employee` (the update operation). -/
theorem c2_validation_order (st : Store) (skip : Option Nat) (form : EmployeeForm)
    (today : PyDate) (pending : List (String × String)) (photoPath : Option String)
    (i : Nat) :
    validate_employee_form st skip form today
        = firstFailure (orderedChecks st skip form today)
    ∧ (∀ e, validate_employee_form st none form today = some e →
        add_employee st form pending photoPath today = (some e, st))
    ∧ (∀ e, validate_employee_form st (some i) form today = some e →
        edit_employee st i form pending photoPath today = (some e, st)) := by
  refine ⟨?_, ?_, ?_⟩
  · simp only [validate_employee_form, orderedChecks, firstFailure,
      checkNamePresent, checkFileNoPresent, checkFileNoUnique, checkNatIdPresent,
      checkNatIdFormat, checkNatIdUnique, checkPhoneFormat]
    split_ifs <;> simp only [firstFailure]
    unfold checkDates
    cases checkDateField form.grade_date .grade_date today with
    | some e => rfl
    | none =>
      cases checkDateField form.hire_date .hire_date today with
      | some e => rfl
      | none =>
        cases checkDateField form.birth_date .birth_date today with
        | some e => rfl
        | none => rfl
  · intro e he
    unfold add_employee
    rw [he]
  · intro e he
    unfold edit_employee
    rw [he]

theorem c2_validation_order_witness :
    add_employee emptyStore emptyForm [] none ⟨2026, 10, 12⟩
      = (some .nameRequired, emptyStore) :=
  (c2_validation_order emptyStore none emptyForm ⟨2026, 10, 12⟩ [] none 1).2.1
    .nameRequired (by decide)

/-! ## Claim C7: delete cascades to attachments and to search results -/

/-- Claim C7: `delete_employee id` removes the employee row with that id and
every attachment row owned by it (and nothing else), and no subsequent
`search_employees` result on the resulting store carries the deleted id. -/
theorem c7_delete_cascade (st : Store) (i : Nat) :
    (∀ e, e ∈ (delete_employee st i).employees ↔ e ∈ st.employees ∧ e.id ≠ i)
    ∧ (∀ a, a ∈ (delete_employee st i).attachments
        ↔ a ∈ st.attachments ∧ a.employee_id ≠ i)
    ∧ (∀ q e, e ∈ search_employees (delete_employee st i) q → e.id ≠ i) := by
  refine ⟨?_, ?_, ?_⟩
  · intro e
    simp [delete_employee, List.mem_filter]
  · intro a
    simp [delete_employee, List.mem_filter]
  · intro q e he
    have h1 : e ∈ (delete_employee st i).employees :=
      List.mem_of_mem_filter he
    simp only [delete_employee, List.mem_filter] at h1
    simpa using h1.2

def c7emp2 : Employee :=
  ⟨2, { emptyForm with
        name := "نادر", file_no := "2", national_id := "12345678901235" }⟩

def c7store : Store :=
  { employees := [⟨1, { emptyForm with
        name := "سامي", file_no := "1", national_id := "12345678901234" }⟩,
      c7emp2],
    attachments := [⟨1, 1, "a.txt", "attachments/1/a.txt", none, none, false⟩],
    nextEmpId := 3, nextAttId := 2 }

theorem c7_delete_cascade_witness :
    c7emp2 ∈ search_employees (delete_employee c7store 1) "" ∧ c7emp2.id ≠ 1 :=
  ⟨by decide, (c7_delete_cascade c7store 1).2.2 "" c7emp2 (by decide)⟩

/-! ## Claim C9: exporting zero records -/

theorem str_append_empty (s : String) : s ++ "" = s := by
  cases s with
  | mk d =>
    show String.mk (d ++ []) = String.mk d
    rw [List.append_nil]

/-- Claim C9: on a store with no employee rows, the export succeeds and the
produced document consists of the fixed frame and the header row alone — the
localized labels in reverse field order — with zero data rows; the store
itself is returned unchanged. -/
theorem c9_export_empty (st : Store) (h : st.employees = []) :
    (export_pdf st).1
        = htmlDocHead ++ String.join (export_headers.reverse.map thCell)
          ++ htmlDocMid ++ htmlDocTail
    ∧ (export_pdf st).2 = st := by
  constructor
  · simp only [export_pdf, h, List.map_nil]
    rw [show String.join [] = "" from rfl, str_append_empty]
  · rfl

theorem c9_export_empty_witness :
    (export_pdf emptyStore).1
        = htmlDocHead ++ String.join (export_headers.reverse.map thCell)
          ++ htmlDocMid ++ htmlDocTail
    ∧ (export_pdf emptyStore).2 = emptyStore :=
  c9_export_empty emptyStore rfl

/-! ## Claim C8: first-writer-wins for attachment files -/

theorem fsRead_write_self (fs : FileSys) (q : String) (b : List Nat) :
    fsRead (fsWrite fs q b) q = some b := by
  simp [fsRead, fsWrite, List.find?]

theorem fsRead_write_ne {fs : FileSys} {p q : String} (b : List Nat)
    (h : q ≠ p) : fsRead (fsWrite fs q b) p = fsRead fs p := by
  have hq : (q == p) = false := beq_eq_false_iff_ne.2 h
  simp [fsRead, fsWrite, List.find?, hq]

theorem recordUpload_fs (selected : Option Nat) (guessType : String → Option String)
    (nowStr : String) (us : UploadState) (fname dest : String) :
    (recordUpload selected guessType nowStr us fname dest).fs = us.fs := by
  unfold recordUpload
  cases selected <;> rfl

/-- Claim C8: an upload whose destination filename already exists in the
employee's folder leaves the existing destination file byte-for-byte
unchanged (indeed it leaves every existing file unchanged), and uploading
two source files that share a destination filename preserves the first
copy's content. -/
theorem c8_no_overwrite (guessType : String → Option String) (nowStr : String)
    (selected : Option Nat) (fno : String) (us : UploadState)
    (src1 src2 p : String) (b b1 : List Nat)
    (hp : fsRead us.fs p = some b)
    (hbase : basename src2 = basename src1)
    (hdest : fsRead us.fs (get_employee_folder fno ++ "/" ++ basename src1) = none)
    (hsrc : fsRead us.fs src1 = some b1) :
    fsRead (upload_one guessType nowStr selected fno us src2).fs p = some b
    ∧ fsRead (upload_files guessType nowStr selected fno us [src1, src2]).fs
        (get_employee_folder fno ++ "/" ++ basename src1) = some b1 := by
  have hne : get_employee_folder fno ++ "/" ++ basename src1 ≠ p := by
    intro he
    rw [he, hp] at hdest
    exact Option.noConfusion hdest
  have hex : fsExists us.fs (get_employee_folder fno ++ "/" ++ basename src1)
      = false := by
    simp [fsExists, hdest]
  have h1 : (upload_one guessType nowStr selected fno us src1).fs
      = fsWrite us.fs (get_employee_folder fno ++ "/" ++ basename src1) b1 := by
    simp only [upload_one, hex, Bool.false_eq_true, if_false, hsrc]
    exact recordUpload_fs _ _ _ _ _ _
  constructor
  · simp only [upload_one, hbase, hex, Bool.false_eq_true, if_false]
    cases hs2 : fsRead us.fs src2 with
    | none => exact hp
    | some bytes =>
      rw [recordUpload_fs]
      rw [fsRead_write_ne bytes hne]
      exact hp
  · simp only [upload_files, List.foldl]
    simp only [upload_one, hbase]
    have hex2 : fsExists (upload_one guessType nowStr selected fno us src1).fs
        (get_employee_folder fno ++ "/" ++ basename src1) = true := by
      rw [h1]
      simp [fsExists, fsRead_write_self]
    simp only [upload_one] at hex2
    simp only [hex2, if_true]
    rw [recordUpload_fs]
    have h1' := h1
    simp only [upload_one] at h1'
    rw [h1']
    exact fsRead_write_self _ _ _

def c8fs : FileSys :=
  [("attachments/1/x.txt", [1]), ("srcA/f.txt", [7]), ("srcB/f.txt", [9])]

def c8us : UploadState := { fs := c8fs, attachList := [], st := emptyStore }

theorem c8_no_overwrite_witness :
    fsRead (upload_one (fun _ => none) "" none "1" c8us "srcB/f.txt").fs
        "attachments/1/x.txt" = some [1]
    ∧ fsRead (upload_files (fun _ => none) "" none "1" c8us
        ["srcA/f.txt", "srcB/f.txt"]).fs
        (get_employee_folder "1" ++ "/" ++ basename "srcA/f.txt") = some [7] :=
  c8_no_overwrite (fun _ => none) "" none "1" c8us "srcA/f.txt" "srcB/f.txt"
    "attachments/1/x.txt" [1] [7] (by decide) (by decide) (by decide) (by decide)

/-! ## Claim C4: search semantics -/

def isPrefixSeq : List Char → List Char → Bool
  | [], _ => true
  | _ :: _, [] => false
  | a :: as, b :: bs => a == b && isPrefixSeq as bs

/-- Case-sensitive substring containment. -/
def containsSeq (needle hay : List Char) : Bool :=
  anySuffix (isPrefixSeq needle) hay

/-- Modelled from the specification's words for claim C4: return exactly the
stored records in which one of name, department, file_no, national_id
contains the normalized query as a case-sensitive substring. -/
def search_employees_specstmt (st : Store) (q : String) : List Employee :=
  let norm := normalize_arabic q
  st.employees.filter fun e =>
    containsSeq norm.data e.fields.name.data
    || containsSeq norm.data e.fields.department.data
    || containsSeq norm.data e.fields.file_no.data
    || containsSeq norm.data e.fields.national_id.data

def c4emp : Employee :=
  ⟨1, { emptyForm with
        name := "Adel", file_no := "1", national_id := "12345678901234" }⟩

def c4store : Store :=
  { employees := [c4emp], attachments := [], nextEmpId := 2, nextAttId := 1 }

/-- Claim C4 counterexample: for the query "adel" the code's search — which
goes through SQLite `LIKE`, case-insensitive on ASCII letters — returns the
record whose stored name is "Adel", whereas the claim's case-sensitive
substring semantics returns the empty result set. -/
theorem c4_counterexample :
    search_employees c4store "adel" = [c4emp]
    ∧ search_employees_specstmt c4store "adel" = [] := by decide

/-- Claim C4 (amended): `search_employees` returns exactly the stored records
where one of name, department, file_no, national_id matches the SQL pattern
`%normalize(query)%` under SQLite LIKE semantics — substring matching that is
case-insensitive on ASCII letters (with `%` and `_` in the query acting as
wildcards); in particular two queries with the same normalization, such as
"احمد" and "أحمد", return identical result sets. -/
theorem c4_search_like (st : Store) (q : String) :
    (∀ e, e ∈ search_employees st q ↔ e ∈ st.employees
        ∧ (likeContains (normalize_arabic q) e.fields.name
           || likeContains (normalize_arabic q) e.fields.department
           || likeContains (normalize_arabic q) e.fields.file_no
           || likeContains (normalize_arabic q) e.fields.national_id) = true)
    ∧ (∀ q2, normalize_arabic q = normalize_arabic q2 →
        search_employees st q = search_employees st q2) := by
  constructor
  · intro e
    simp [search_employees, List.mem_filter]
  · intro q2 h
    simp only [search_employees, h]

theorem c4_search_like_witness :
    search_employees c4store "احمد" = search_employees c4store "أحمد" :=
  (c4_search_like c4store "احمد").2 "أحمد" (by decide)

/-! ## Helper characterizations of validation -/

theorem string_eq_empty_iff {s : String} : s = "" ↔ s.data = [] := by
  cases s with
  | mk d =>
    constructor
    · intro h
      exact congrArg String.data h
    · intro h
      have h' : d = [] := h
      rw [h']

/-- `validate_employee_form` succeeds exactly when every individual invariant
holds. -/
theorem validate_none_iff (st : Store) (skip : Option Nat) (form : EmployeeForm)
    (today : PyDate) :
    validate_employee_form st skip form today = none ↔
      (pyStrip form.name ≠ ""
      ∧ pyStrip form.file_no ≠ ""
      ∧ fileNoTaken st (pyStrip form.file_no) skip = false
      ∧ pyStrip form.national_id ≠ ""
      ∧ (pyIsDigitStr (pyStrip form.national_id)
          && (pyStrip form.national_id).length == 14) = true
      ∧ natIdTaken st (pyStrip form.national_id) skip = false
      ∧ (pyStrip form.phone != "" && !(pyIsDigitStr (pyStrip form.phone))) = false
      ∧ checkDateField form.grade_date .grade_date today = none
      ∧ checkDateField form.hire_date .hire_date today = none
      ∧ checkDateField form.birth_date .birth_date today = none) := by
  simp only [validate_employee_form, checkDates]
  split_ifs with h1 h2 h3 h4 h5 h6 h7
  · simp [h1]
  · simp [h1, h2]
  · simp [h3]
  · simp [h4]
  · have h5' : (pyIsDigitStr (pyStrip form.national_id)
        && (pyStrip form.national_id).length == 14) = false := by
      rwa [Bool.not_eq_true'] at h5
    simp [h5']
  · simp [h6]
  · simp [h7]
  · have b3 : fileNoTaken st (pyStrip form.file_no) skip = false := by simpa using h3
    have a5 : (pyIsDigitStr (pyStrip form.national_id)
        && (pyStrip form.national_id).length == 14) = true := by
      cases hx : (pyIsDigitStr (pyStrip form.national_id)
          && (pyStrip form.national_id).length == 14) with
      | true => rfl
      | false => rw [hx] at h5; simp at h5
    have b6 : natIdTaken st (pyStrip form.national_id) skip = false := by simpa using h6
    have b7 : (pyStrip form.phone != "" && !(pyIsDigitStr (pyStrip form.phone))) = false := by
      simpa using h7
    cases hg : checkDateField form.grade_date .grade_date today with
    | some e => simp [hg, h1, h2, b3, h4, a5, b6, b7]
    | none =>
      cases hh : checkDateField form.hire_date .hire_date today with
      | some e => simp [hg, hh, h1, h2, b3, h4, a5, b6, b7]
      | none =>
        cases hb : checkDateField form.birth_date .birth_date today with
        | some e => simp [hg, hh, hb, h1, h2, b3, h4, a5, b6, b7]
        | none => simp [hg, hh, hb, h1, h2, b3, h4, a5, b6, b7]

/-! ## Claim C6: field format rules -/

/-- A fixed valid context: non-empty name, unique file number, valid national
id, everything else empty.  Individual fields are varied on top of it. -/
def baseForm : EmployeeForm :=
  { emptyForm with
    name := "ن", file_no := "7", national_id := "12345678901234" }

theorem checkDateField_eval {s : String} {tag : DateField} {today dv : PyDate}
    (hne : pyStrip s ≠ "") (hp : parse_date (pyStrip s) = some dv) :
    checkDateField s tag today
      = (if dateLtB today dv then some (.dateFuture tag) else none) := by
  unfold checkDateField
  rw [if_neg hne, hp]

/-- On the base form with only the national id varying, validation reduces to
the national id checks. -/
theorem validate_baseForm_natid (nid : String) (today : PyDate) :
    validate_employee_form emptyStore none
        { baseForm with national_id := nid } today
      = (if pyStrip nid = "" then some .natIdRequired
         else if !(pyIsDigitStr (pyStrip nid) && (pyStrip nid).length == 14) then
           some .natIdFormat
         else none) := by
  simp only [validate_employee_form]
  rw [if_neg (by decide), if_neg (by decide), if_neg (by decide)]
  by_cases h0 : pyStrip nid = ""
  · rw [if_pos h0, if_pos h0]
  · rw [if_neg h0, if_neg h0]
    by_cases h5 : (!(pyIsDigitStr (pyStrip nid) && (pyStrip nid).length == 14)) = true
    · rw [if_pos h5, if_pos h5]
    · rw [if_neg h5, if_neg h5]
      rw [if_neg (show ¬ natIdTaken emptyStore (pyStrip nid) none = true by
        simp [natIdTaken, emptyStore])]
      rw [if_neg (by decide)]
      rfl

/-- On the base form with only the phone varying, validation reduces to the
phone check. -/
theorem validate_baseForm_phone (ph : String) (today : PyDate) :
    validate_employee_form emptyStore none { baseForm with phone := ph } today
      = (if pyStrip ph != "" && !(pyIsDigitStr (pyStrip ph)) then some .phoneFormat
         else none) := by
  simp only [validate_employee_form]
  rw [if_neg (by decide), if_neg (by decide), if_neg (by decide), if_neg (by decide),
    if_neg (by decide), if_neg (by decide)]
  by_cases h7 : (pyStrip ph != "" && !(pyIsDigitStr (pyStrip ph))) = true
  · rw [if_pos h7, if_pos h7]
  · rw [if_neg h7, if_neg h7]
    rfl

/-- On the base form with only the grade date varying, validation reduces to
the date check. -/
theorem validate_baseForm_grade (ds : String) (today : PyDate) :
    validate_employee_form emptyStore none { baseForm with grade_date := ds } today
      = checkDateField ds .grade_date today := by
  simp only [validate_employee_form, checkDates]
  rw [if_neg (by decide), if_neg (by decide), if_neg (by decide), if_neg (by decide),
    if_neg (by decide), if_neg (by decide), if_neg (by decide)]
  cases hg : checkDateField ds .grade_date today with
  | some e => rfl
  | none => rfl

/-- Claim C6: in an otherwise valid context, validation accepts the national
id iff its trimmed text is exactly 14 digit characters ("12345" rejected,
"12345678901234" accepted); a non-empty phone is accepted iff it is all
digits; a non-empty date field is accepted iff it parses as YYYY-MM-DD and
does not exceed today ("2999-01-01" rejected as a future date, "2000-01-01"
accepted). -/
theorem c6_field_formats (today : PyDate) (nid ph ds : String)
    (hlo : dateLtB today ⟨2000, 1, 1⟩ = false)
    (hhi : dateLtB today ⟨2999, 1, 1⟩ = true) :
    (validate_employee_form emptyStore none
        { baseForm with national_id := nid } today = none
      ↔ ((pyStrip nid).data.all pyIsDigit = true ∧ (pyStrip nid).length = 14))
    ∧ validate_employee_form emptyStore none
        { baseForm with national_id := "12345" } today = some .natIdFormat
    ∧ validate_employee_form emptyStore none
        { baseForm with national_id := "12345678901234" } today = none
    ∧ (pyStrip ph ≠ "" →
        (validate_employee_form emptyStore none
            { baseForm with phone := ph } today = none
          ↔ (pyStrip ph).data.all pyIsDigit = true))
    ∧ (validate_employee_form emptyStore none
        { baseForm with grade_date := ds } today = none
      ↔ (pyStrip ds = "" ∨ ∃ dv, parse_date (pyStrip ds) = some dv
            ∧ dateLtB today dv = false))
    ∧ validate_employee_form emptyStore none
        { baseForm with grade_date := "2999-01-01" } today
        = some (.dateFuture .grade_date)
    ∧ validate_employee_form emptyStore none
        { baseForm with grade_date := "2000-01-01" } today = none := by
  refine ⟨?_, ?_, ?_, ?_, ?_, ?_, ?_⟩
  · rw [validate_baseForm_natid nid today]
    constructor
    · intro h
      by_cases h0 : pyStrip nid = ""
      · rw [if_pos h0] at h
        exact absurd h (by simp)
      · rw [if_neg h0] at h
        by_cases h5 : (!(pyIsDigitStr (pyStrip nid) && (pyStrip nid).length == 14)) = true
        · rw [if_pos h5] at h
          exact absurd h (by simp)
        · have h5' : (pyIsDigitStr (pyStrip nid) && (pyStrip nid).length == 14) = true := by
            cases hx : (pyIsDigitStr (pyStrip nid) && (pyStrip nid).length == 14) with
            | true => rfl
            | false => rw [hx] at h5; simp at h5
          rw [Bool.and_eq_true] at h5'
          constructor
          · have h1 := h5'.1
            simp only [pyIsDigitStr, Bool.and_eq_true] at h1
            exact h1.2
          · simpa using h5'.2
    · rintro ⟨hall, hlen⟩
      have hne : pyStrip nid ≠ "" := by
        intro h0
        rw [h0] at hlen
        exact absurd hlen (by decide)
      rw [if_neg hne]
      have hfmt : (pyIsDigitStr (pyStrip nid) && (pyStrip nid).length == 14) = true := by
        rw [Bool.and_eq_true]
        constructor
        · simp only [pyIsDigitStr, Bool.and_eq_true]
          constructor
          · have hd : (pyStrip nid).data ≠ [] := by
              intro h0
              have hlen' : (pyStrip nid).data.length = 14 := hlen
              rw [h0] at hlen'
              exact absurd hlen' (by decide)
            cases hc : (pyStrip nid).data with
            | nil => exact absurd hc hd
            | cons a t => rfl
          · exact hall
        · simpa using hlen
      rw [if_neg (by simp [hfmt])]
  · rw [validate_baseForm_natid "12345" today]
    decide
  · rw [validate_baseForm_natid "12345678901234" today]
    decide
  · intro hph
    rw [validate_baseForm_phone ph today]
    have hbne : (pyStrip ph != "") = true := by simpa using hph
    by_cases hd : (pyStrip ph).data.all pyIsDigit = true
    · have hdig : pyIsDigitStr (pyStrip ph) = true := by
        simp only [pyIsDigitStr, Bool.and_eq_true]
        constructor
        · have hd0 : (pyStrip ph).data ≠ [] := by
            intro h0
            exact hph (string_eq_empty_iff.2 h0)
          cases hc : (pyStrip ph).data with
          | nil => exact absurd hc hd0
          | cons a t => rfl
        · exact hd
      rw [show (pyStrip ph != "" && !(pyIsDigitStr (pyStrip ph))) = false from by
        rw [hdig]; simp]
      simp [hd]
    · have hd' : (pyStrip ph).data.all pyIsDigit = false := by
        cases hx : (pyStrip ph).data.all pyIsDigit with
        | true => exact absurd hx hd
        | false => rfl
      have hdig : pyIsDigitStr (pyStrip ph) = false := by
        simp only [pyIsDigitStr, hd']
        simp
      rw [show (pyStrip ph != "" && !(pyIsDigitStr (pyStrip ph))) = true from by
        rw [hdig, hbne]; rfl]
      simp [hd']
  · rw [validate_baseForm_grade ds today]
    unfold checkDateField
    by_cases h0 : pyStrip ds = ""
    · simp [h0]
    · rw [if_neg h0]
      cases hp : parse_date (pyStrip ds) with
      | none => simp [h0, hp]
      | some dv =>
        by_cases hlt : dateLtB today dv = true
        · simp [h0, hp, hlt]
        · have hlt' : dateLtB today dv = false := by
            cases hx : dateLtB today dv with
            | true => exact absurd hx hlt
            | false => rfl
          simp [h0, hp, hlt']
  · rw [validate_baseForm_grade "2999-01-01" today]
    rw [checkDateField_eval (by decide)
      (show parse_date (pyStrip "2999-01-01") = some ⟨2999, 1, 1⟩ from by decide)]
    rw [if_pos hhi]
  · rw [validate_baseForm_grade "2000-01-01" today]
    rw [checkDateField_eval (by decide)
      (show parse_date (pyStrip "2000-01-01") = some ⟨2000, 1, 1⟩ from by decide)]
    rw [if_neg (by simp [hlo])]

theorem c6_field_formats_witness :
    validate_employee_form emptyStore none
        { baseForm with national_id := "12345" } ⟨2026, 10, 12⟩
      = some .natIdFormat :=
  (c6_field_formats ⟨2026, 10, 12⟩ "x" "y" "z" (by decide) (by decide)).2.1

/-! ## Claim C5: updating a record with its own values -/

theorem checkDateField_cases (s : String) (tag : DateField) (today : PyDate) :
    checkDateField s tag today = none
    ∨ checkDateField s tag today = some (.dateFormat tag)
    ∨ checkDateField s tag today = some (.dateFuture tag) := by
  unfold checkDateField
  by_cases h0 : pyStrip s = ""
  · simp [h0]
  · rw [if_neg h0]
    cases hp : parse_date (pyStrip s) with
    | none => simp
    | some dv =>
      by_cases hlt : dateLtB today dv = true
      · simp [hlt]
      · simp [hlt]

/-- A failure out of the date loop is always a date error. -/
theorem checkDates_shape (form : EmployeeForm) (today : PyDate) (e : VErr)
    (h : checkDates form today = some e) :
    ∃ tag, e = .dateFormat tag ∨ e = .dateFuture tag := by
  unfold checkDates at h
  rcases checkDateField_cases form.grade_date .grade_date today with hg | hg | hg <;>
    rw [hg] at h
  · rcases checkDateField_cases form.hire_date .hire_date today with hh | hh | hh <;>
      rw [hh] at h
    · rcases checkDateField_cases form.birth_date .birth_date today with hb | hb | hb <;>
        rw [hb] at h
      · exact absurd h (by simp)
      · exact ⟨.birth_date, Or.inl (Option.some.inj h).symm⟩
      · exact ⟨.birth_date, Or.inr (Option.some.inj h).symm⟩
    · exact ⟨.hire_date, Or.inl (Option.some.inj h).symm⟩
    · exact ⟨.hire_date, Or.inr (Option.some.inj h).symm⟩
  · exact ⟨.grade_date, Or.inl (Option.some.inj h).symm⟩
  · exact ⟨.grade_date, Or.inr (Option.some.inj h).symm⟩

theorem insertAttachments_employees (empId : Nat) (photoPath : Option String) :
    ∀ (pending : List (String × String)) (st : Store),
      (insertAttachments st empId pending photoPath).employees = st.employees := by
  intro pending
  induction pending with
  | nil => intro st; rfl
  | cons p rest ih =>
    intro st
    simp only [insertAttachments, List.foldl] at ih ⊢
    rw [ih]

/-- Claim C5: for a stored record, an update whose file number and national id
equal the record's own current stored values passes the uniqueness checks
(the record's own row is excluded from them) and never fails as a duplicate;
and once the remaining validation passes, `edit_employee` overwrites all
attributes of that record with the normalized form. -/
theorem c5_update_self (st : Store) (emp : Employee) (form : EmployeeForm)
    (today : PyDate) (pending : List (String × String)) (photoPath : Option String)
    (hmem : emp ∈ st.employees)
    (hf : pyStrip form.file_no = emp.fields.file_no)
    (hn : pyStrip form.national_id = emp.fields.national_id)
    (huniq : ∀ e ∈ st.employees, e.id ≠ emp.id →
      e.fields.file_no ≠ emp.fields.file_no
      ∧ e.fields.national_id ≠ emp.fields.national_id) :
    fileNoTaken st (pyStrip form.file_no) (some emp.id) = false
    ∧ natIdTaken st (pyStrip form.national_id) (some emp.id) = false
    ∧ (∀ e0, validate_employee_form st (some emp.id) form today = some e0 →
        e0 ≠ .fileNoDup ∧ e0 ≠ .natIdDup)
    ∧ (validate_employee_form st (some emp.id) form today = none →
        (edit_employee st emp.id form pending photoPath today).1 = none
        ∧ (edit_employee st emp.id form pending photoPath today).2.employees
            = st.employees.map fun e =>
                if e.id = emp.id then { e with fields := normalizeForm form } else e) := by
  have hfile : fileNoTaken st (pyStrip form.file_no) (some emp.id) = false := by
    rw [hf]
    simp only [fileNoTaken, List.any_eq_false]
    intro e he
    by_cases hid : e.id = emp.id
    · simp [hid]
    · have hne := (huniq e he hid).1
      simp [hne]
  have hnat : natIdTaken st (pyStrip form.national_id) (some emp.id) = false := by
    rw [hn]
    simp only [natIdTaken, List.any_eq_false]
    intro e he
    by_cases hid : e.id = emp.id
    · simp [hid]
    · have hne := (huniq e he hid).2
      simp [hne]
  refine ⟨hfile, hnat, ?_, ?_⟩
  · intro e0 h
    simp only [validate_employee_form] at h
    split_ifs at h with h1 h2 h3 h4 h5 h6 h7
    · cases Option.some.inj h
      exact ⟨by simp, by simp⟩
    · cases Option.some.inj h
      exact ⟨by simp, by simp⟩
    · rw [hfile] at h3
      exact absurd h3 (by simp)
    · cases Option.some.inj h
      exact ⟨by simp, by simp⟩
    · cases Option.some.inj h
      exact ⟨by simp, by simp⟩
    · rw [hnat] at h6
      exact absurd h6 (by simp)
    · cases Option.some.inj h
      exact ⟨by simp, by simp⟩
    · rcases checkDates_shape form today e0 h with ⟨tag, htag | htag⟩ <;>
        subst htag <;> exact ⟨by simp, by simp⟩
  · intro hv
    constructor
    · unfold edit_employee
      rw [hv]
    · unfold edit_employee
      rw [hv]
      rw [insertAttachments_employees emp.id photoPath pending]

def c5form : EmployeeForm :=
  { emptyForm with
    name := "ن", file_no := "5", national_id := "12345678901234" }

def c5emp : Employee := ⟨1, c5form⟩

def c5store : Store :=
  { employees := [c5emp], attachments := [], nextEmpId := 2, nextAttId := 1 }

theorem c5_update_self_witness :
    (edit_employee c5store 1 c5form [] none ⟨2026, 10, 12⟩).1 = none
    ∧ (edit_employee c5store 1 c5form [] none ⟨2026, 10, 12⟩).2.employees
        = c5store.employees.map fun e =>
            if e.id = 1 then { e with fields := normalizeForm c5form } else e :=
  (c5_update_self c5store c5emp c5form ⟨2026, 10, 12⟩ [] none (by decide) (by decide)
    (by decide) (by decide)).2.2.2 (by decide)

/-! ## Claims C1 and C10: adding, uniqueness, raw vs normalized -/

/-- A string whose trimmed form is all digits is left unchanged by the Arabic
normalizer except for the trim itself (digits and whitespace are neither
tatweel nor letter variants). -/
theorem normalize_eq_pyStrip_of_digits {s : String}
    (h : (pyStrip s).data.all pyIsDigit = true) :
    normalize_arabic s = pyStrip s := by
  have hall : ∀ c ∈ s.data, pyIsSpace c = true ∨ pyIsDigit c = true := by
    obtain ⟨a, b, hdecomp, ha, hb⟩ := pyStripChars_decomp s.data
    intro c hc
    rw [hdecomp] at hc
    rcases List.mem_append.1 hc with hc1 | hc2
    · rcases List.mem_append.1 hc1 with hca | hcm
      · exact Or.inl (ha c hca)
      · right
        rw [List.all_eq_true] at h
        exact h c hcm
    · exact Or.inl (hb c hc2)
  by_cases hs : s = ""
  · rw [hs]; decide
  · simp only [normalize_arabic, if_neg hs, pyStrip]
    have hnot : ∀ x ∈ s.data,
        x ≠ tatweel ∧ x ≠ 'أ' ∧ x ≠ 'إ' ∧ x ≠ 'آ' ∧ x ≠ 'ة' ∧ x ≠ 'ى' := by
      intro x hx
      rcases hall x hx with hsp | hdg
      · refine ⟨?_, ?_, ?_, ?_, ?_, ?_⟩ <;>
          (intro he; subst he; exact absurd hsp (by decide))
      · refine ⟨?_, ?_, ?_, ?_, ?_, ?_⟩ <;>
          (intro he; subst he; exact absurd hdg (by decide))
    have e0 : s.data.filter (fun c => c != tatweel) = s.data :=
      List.filter_eq_self.2 fun c hc => by simpa using (hnot c hc).1
    rw [e0]
    rw [strReplaceChar_eq_self fun x hx => (hnot x hx).2.1]
    rw [strReplaceChar_eq_self fun x hx => (hnot x hx).2.2.1]
    rw [strReplaceChar_eq_self fun x hx => (hnot x hx).2.2.2.1]
    rw [strReplaceChar_eq_self fun x hx => (hnot x hx).2.2.2.2.1]
    rw [strReplaceChar_eq_self fun x hx => (hnot x hx).2.2.2.2.2]

theorem validate_isSome_of_natIdTaken {st : Store} {skip : Option Nat}
    {form : EmployeeForm} {today : PyDate}
    (h : natIdTaken st (pyStrip form.national_id) skip = true) :
    (validate_employee_form st skip form today).isSome = true := by
  simp only [validate_employee_form]
  split_ifs with h1 h2 h3 h4 h5 h6 h7
  all_goals first | rfl | exact absurd h h6

theorem validate_isSome_of_fileNoTaken {st : Store} {skip : Option Nat}
    {form : EmployeeForm} {today : PyDate}
    (h : fileNoTaken st (pyStrip form.file_no) skip = true) :
    (validate_employee_form st skip form today).isSome = true := by
  simp only [validate_employee_form]
  split_ifs with h1 h2 h3 h4 h5 h6 h7
  all_goals first | rfl | exact absurd h h3

theorem add_employee_of_invalid {st : Store} {form : EmployeeForm}
    {pending : List (String × String)} {photoPath : Option String} {today : PyDate}
    (h : (validate_employee_form st none form today).isSome = true) :
    (add_employee st form pending photoPath today).1.isSome = true
    ∧ (add_employee st form pending photoPath today).2 = st := by
  unfold add_employee
  cases hv : validate_employee_form st none form today with
  | some e => exact ⟨rfl, rfl⟩
  | none => rw [hv] at h; exact absurd h (by simp)

theorem validate_none_natid_digits {st : Store} {skip : Option Nat}
    {form : EmployeeForm} {today : PyDate}
    (h : validate_employee_form st skip form today = none) :
    (pyStrip form.national_id).data.all pyIsDigit = true := by
  have hc := (validate_none_iff st skip form today).1 h
  have h5 := hc.2.2.2.2.1
  rw [Bool.and_eq_true] at h5
  have h5' := h5.1
  simp only [pyIsDigitStr, Bool.and_eq_true] at h5'
  exact h5'.2

theorem add_employee_valid_employees (st : Store) (form : EmployeeForm)
    (pending : List (String × String)) (photoPath : Option String) (today : PyDate)
    (hv : validate_employee_form st none form today = none) :
    (add_employee st form pending photoPath today).1 = none
    ∧ (add_employee st form pending photoPath today).2.employees
        = st.employees ++ [⟨st.nextEmpId, normalizeForm form⟩] := by
  unfold add_employee
  rw [hv]
  exact ⟨rfl, insertAttachments_employees _ _ _ _⟩

/-- Claim C1 (amended): from an empty store, adding a valid field set inserts
exactly one record, whose attribute values are the normalized input; on the
resulting store a second `add_employee` with the same trimmed national id
always fails with a validation error and inserts nothing; and a second
`add_employee` with the same trimmed file number fails likewise provided the
file number is unchanged by Arabic normalization.  (For a file number that
normalization rewrites, the duplicate check misses — see the counterexample
and claim C10.) -/
theorem c1_add_unique (form : EmployeeForm) (today : PyDate)
    (pending : List (String × String)) (photoPath : Option String)
    (hv : validate_employee_form emptyStore none form today = none) :
    (add_employee emptyStore form pending photoPath today).1 = none
    ∧ list_employees (add_employee emptyStore form pending photoPath today).2
        = [⟨1, normalizeForm form⟩]
    ∧ (∀ form2 today2 pend2 pp2,
        pyStrip form2.national_id = pyStrip form.national_id →
        (add_employee (add_employee emptyStore form pending photoPath today).2
            form2 pend2 pp2 today2).1.isSome = true
        ∧ (add_employee (add_employee emptyStore form pending photoPath today).2
            form2 pend2 pp2 today2).2
          = (add_employee emptyStore form pending photoPath today).2)
    ∧ (normalize_arabic form.file_no = pyStrip form.file_no →
        ∀ form2 today2 pend2 pp2,
        pyStrip form2.file_no = pyStrip form.file_no →
        (add_employee (add_employee emptyStore form pending photoPath today).2
            form2 pend2 pp2 today2).1.isSome = true
        ∧ (add_employee (add_employee emptyStore form pending photoPath today).2
            form2 pend2 pp2 today2).2
          = (add_employee emptyStore form pending photoPath today).2) := by
  obtain ⟨h1, hemps⟩ := add_employee_valid_employees emptyStore form pending
    photoPath today hv
  have hemps' : (add_employee emptyStore form pending photoPath today).2.employees
      = [⟨1, normalizeForm form⟩] := by
    rw [hemps]
    rfl
  have hstoredn : (normalizeForm form).national_id = pyStrip form.national_id :=
    normalize_eq_pyStrip_of_digits (validate_none_natid_digits hv)
  refine ⟨h1, hemps', ?_, ?_⟩
  · intro form2 today2 pend2 pp2 heq
    apply add_employee_of_invalid
    apply validate_isSome_of_natIdTaken
    rw [heq]
    simp [natIdTaken, hemps', hstoredn]
  · intro hinv form2 today2 pend2 pp2 heq
    have hstoredf : (normalizeForm form).file_no = pyStrip form.file_no := hinv
    apply add_employee_of_invalid
    apply validate_isSome_of_fileNoTaken
    rw [heq]
    simp [fileNoTaken, hemps', hstoredf]

def c1form1 : EmployeeForm :=
  { emptyForm with
    name := "ن", file_no := "أ", national_id := "12345678901234" }

def c1form2 : EmployeeForm :=
  { c1form1 with national_id := "12345678901235" }

/-- Claim C1 counterexample: with the valid field set `c1form1` (file number
"أ", rewritten to "ا" by normalization before storage) the first add
succeeds; a second add with the very same raw file number and a fresh
national id does not fail with a validation error — it succeeds and inserts
a second record. -/
theorem c1_counterexample :
    c1form2.file_no = c1form1.file_no
    ∧ (add_employee emptyStore c1form1 [] none ⟨2026, 10, 12⟩).1 = none
    ∧ (add_employee (add_employee emptyStore c1form1 [] none ⟨2026, 10, 12⟩).2
        c1form2 [] none ⟨2026, 10, 12⟩).1 = none
    ∧ (add_employee (add_employee emptyStore c1form1 [] none ⟨2026, 10, 12⟩).2
        c1form2 [] none ⟨2026, 10, 12⟩).2.employees.length = 2 := by
  decide

def c1wform : EmployeeForm :=
  { emptyForm with
    name := "ن", file_no := "9", national_id := "12345678901234" }

def c1wform2 : EmployeeForm :=
  { c1wform with file_no := "8" }

theorem c1_add_unique_witness :
    (add_employee (add_employee emptyStore c1wform [] none ⟨2026, 10, 12⟩).2
        c1wform2 [] none ⟨2026, 10, 12⟩).1.isSome = true
    ∧ (add_employee (add_employee emptyStore c1wform [] none ⟨2026, 10, 12⟩).2
        c1wform2 [] none ⟨2026, 10, 12⟩).2
      = (add_employee emptyStore c1wform [] none ⟨2026, 10, 12⟩).2 :=
  (c1_add_unique c1wform ⟨2026, 10, 12⟩ [] none (by decide)).2.2.1
    c1wform2 ⟨2026, 10, 12⟩ [] none (by decide)

/-- Claim C10: uniqueness queries run on the raw, whitespace-trimmed form
text, while the values `add_employee` persists are `normalize_arabic` of the
raw text; the file-number duplicate lookup right after an insert finds the
raw text again exactly when normalization left it unchanged, and the
national id (validated to be digits, on which normalization is the identity)
is always found again. -/
theorem c10_raw_vs_normalized (form : EmployeeForm) (today : PyDate)
    (hv : validate_employee_form emptyStore none form today = none) :
    (add_employee emptyStore form [] none today).1 = none
    ∧ (add_employee emptyStore form [] none today).2.employees.map
        (fun e => e.fields.file_no) = [normalize_arabic form.file_no]
    ∧ (add_employee emptyStore form [] none today).2.employees.map
        (fun e => e.fields.national_id) = [normalize_arabic form.national_id]
    ∧ fileNoTaken (add_employee emptyStore form [] none today).2
        (pyStrip form.file_no) none
      = (normalize_arabic form.file_no == pyStrip form.file_no)
    ∧ natIdTaken (add_employee emptyStore form [] none today).2
        (pyStrip form.national_id) none = true := by
  obtain ⟨h1, hemps⟩ := add_employee_valid_employees emptyStore form [] none today hv
  have hemps' : (add_employee emptyStore form [] none today).2.employees
      = [⟨1, normalizeForm form⟩] := by
    rw [hemps]
    rfl
  have hstoredn : (normalizeForm form).national_id = pyStrip form.national_id :=
    normalize_eq_pyStrip_of_digits (validate_none_natid_digits hv)
  refine ⟨h1, ?_, ?_, ?_, ?_⟩
  · rw [hemps']
    rfl
  · rw [hemps']
    rfl
  · simp [fileNoTaken, hemps']
    rfl
  · simp [natIdTaken, hemps', hstoredn]

def c10form : EmployeeForm :=
  { emptyForm with
    name := "ن", file_no := "أ1", national_id := "12345678901234" }

theorem c10_raw_vs_normalized_witness :
    fileNoTaken (add_employee emptyStore c10form [] none ⟨2026, 10, 12⟩).2
        (pyStrip c10form.file_no) none
      = (normalize_arabic c10form.file_no == pyStrip c10form.file_no)
    ∧ normalize_arabic c10form.file_no ≠ pyStrip c10form.file_no :=
  ⟨(c10_raw_vs_normalized c10form ⟨2026, 10, 12⟩ (by decide)).2.2.2.1, by decide⟩
